import Mathlib

/-!
# MontecarloSolver.jsx — a shallow embedding

The React component `MontecarloSolver` (frontend/src/MontecarloSolver.jsx) keeps a
form state of four numbers, updates it from text inputs (`handleChange`), posts it to
`/api/simulate` (`handleSimulate`) and reshapes the answer into chart rows
(`chartData`).  The component state is modelled by explicit state passing, the network
by a function from the issued call to its outcome, and thrown exceptions by
`Except`/`Option`.

Conventions of the embedding:

* a JavaScript Number is `JSNum`: `NaN`, `±Infinity`, or a finite binary64 value given
  by the rational it equals (the sign of zero is outside the model);
* a JavaScript string is a Lean `String`;
* a JSON text is represented by the JSON value it denotes (`Json`), a numeral by the
  number it parses to.
-/

namespace MontecarloSolver

/-! ## Numbers -/

/-- JavaScript Number values: `NaN`, the two infinities, and the finite binary64
values, each given by the rational it equals. -/
inductive JSNum where
  | nan
  | inf (neg : Bool)
  | fin (q : ℚ)
  deriving DecidableEq

namespace JSNum

/-- The test `Number.isNaN`. -/
def isNaN : JSNum → Bool
  | nan => true
  | _ => false

/-- The test `Number.isFinite`. -/
def isFinite : JSNum → Bool
  | fin _ => true
  | _ => false

/-- The test `Number.isInteger`. -/
def isInteger : JSNum → Bool
  | fin q => decide (q.den = 1)
  | _ => false

end JSNum

/-! ## `parseFloat` (ECMAScript `parseFloat`, grammar `StrDecimalLiteral`) -/

/-- Code points removed by `TrimString` (WhiteSpace and LineTerminator). -/
def isStrWhiteSpaceChar (c : Char) : Bool :=
  let n := c.toNat
  n = 0x9 || n = 0xA || n = 0xB || n = 0xC || n = 0xD || n = 0x20 || n = 0xA0 ||
  n = 0x1680 || (0x2000 ≤ n && n ≤ 0x200A) || n = 0x2028 || n = 0x2029 ||
  n = 0x202F || n = 0x205F || n = 0x3000 || n = 0xFEFF

/-- Value of one decimal digit character. -/
def digitVal (c : Char) : Nat := c.toNat - 48

/-- Value of a run of decimal digits (`DecimalDigits`). -/
def digitsVal (ds : List Char) : Nat := ds.foldl (fun a c => 10 * a + digitVal c) 0

/-- An optional sign at the head of a list: whether it is `-`, and what follows it. -/
def splitSign : List Char → Bool × List Char
  | '+' :: r => (false, r)
  | '-' :: r => (true, r)
  | t => (false, t)

/-- The optional `ExponentPart` at the head of `rest`: `e`/`E`, an optional sign and at
least one digit; anything else is not part of the literal and counts as exponent 0. -/
def parseExponent (rest : List Char) : Int :=
  match rest with
  | [] => 0
  | e :: r =>
    if e = 'e' ∨ e = 'E' then
      let signed := splitSign r
      let ds := signed.2.takeWhile Char.isDigit
      if ds.isEmpty then 0
      else if signed.1 then -((digitsVal ds : Nat) : Int) else ((digitsVal ds : Nat) : Int)
    else 0

/-- What follows the integer digits `intDs` of a `StrUnsignedDecimalLiteral`: an
optional period with fraction digits, then an optional exponent.  The result is
`(digits, scale)` with mathematical value `digits * 10 ^ scale`, or `none` when there
is no digit at all. -/
def parseAfterInt (intDs : List Char) : List Char → Option (Nat × Int)
  | '.' :: r2 =>
    let fracDs := r2.takeWhile Char.isDigit
    let r3 := r2.dropWhile Char.isDigit
    if intDs.isEmpty && fracDs.isEmpty then none
    else some (digitsVal (intDs ++ fracDs), parseExponent r3 - (fracDs.length : Int))
  | r1 => if intDs.isEmpty then none else some (digitsVal intDs, parseExponent r1)

/-- The longest prefix that is a `StrUnsignedDecimalLiteral` other than `Infinity`,
returned as `(digits, scale)` with mathematical value `digits * 10 ^ scale`;
`none` when no prefix is a literal. -/
def parseUnsigned (s : List Char) : Option (Nat × Int) :=
  parseAfterInt (s.takeWhile Char.isDigit) (s.dropWhile Char.isDigit)

/-- The integer nearest to `num / den`, ties going to the even one. -/
def roundHalfEven (num den : Nat) : Nat :=
  let q := num / den
  let r := num % den
  if 2 * r < den then q else if den < 2 * r then q + 1 else q + q % 2

/-- The number of binary digits of `n` (`fuel` bounds the recursion; `n` suffices). -/
def bitLength : Nat → Nat → Nat
  | 0, _ => 0
  | fuel + 1, n => if n = 0 then 0 else bitLength fuel (n / 2) + 1

/-- The exponent `e` with `2 ^ e ≤ num / den < 2 ^ (e + 1)`, for positive `num`, `den`. -/
def floorLog2 (num den : Nat) : Int :=
  let e0 : Int := (bitLength num num : Int) - (bitLength den den : Int)
  if (if 0 ≤ e0 then den * 2 ^ e0.toNat ≤ num else den ≤ num * 2 ^ (-e0).toNat) then e0
  else e0 - 1

/-- The Number denoted by the decimal `d * 10 ^ sc` with the given sign
(`RoundMVResult`): the nearest binary64 value, ties to even, with 53 significant bits
down to the exponent -1022, multiples of `2 ^ (-1074)` below that, and an infinity
from `2 ^ 1024` on. -/
def roundDouble (neg : Bool) (d : Nat) (sc : Int) : JSNum :=
  let num := if 0 ≤ sc then d * 10 ^ sc.toNat else d
  let den := if 0 ≤ sc then 1 else 10 ^ (-sc).toNat
  if num = 0 then JSNum.fin 0
  else
    let e := max (floorLog2 num den) (-1022)
    let s := e - 52
    let n :=
      if 0 ≤ s then roundHalfEven num (den * 2 ^ s.toNat)
      else roundHalfEven (num * 2 ^ (-s).toNat) den
    if 1024 ≤ e ∨ (e = 1023 ∧ n = 2 ^ 53) then JSNum.inf neg
    else JSNum.fin ((if neg then -1 else 1) * (n : ℚ) * (2 : ℚ) ^ s)

/-- ECMAScript `parseFloat` on a string: trim leading white space, read the longest
prefix that is a `StrDecimalLiteral` and return the Number it denotes; `NaN` when
there is none. -/
def parseFloat (input : String) : JSNum :=
  let signed := splitSign (input.data.dropWhile isStrWhiteSpaceChar)
  if "Infinity".data.isPrefixOf signed.2 then JSNum.inf signed.1
  else
    match parseUnsigned signed.2 with
    | none => JSNum.nan
    | some (d, sc) => roundDouble signed.1 d sc

/-! ## Form state and `handleChange` -/

/-- The `name` attribute of the four text inputs that carry `onChange={handleChange}`. -/
inductive Field where
  | current_price
  | volatility
  | num_days
  | num_simulations
  deriving DecidableEq

/-- The `input` state object. -/
structure Input where
  current_price : JSNum
  volatility : JSNum
  num_days : JSNum
  num_simulations : JSNum
  deriving DecidableEq

/-- Initial value given to `useState` for `input`; the literal `0.2` denotes the
binary64 value `3602879701896397 / 2 ^ 54`. -/
def initialInput : Input :=
  { current_price := JSNum.fin 100
    volatility := JSNum.fin (3602879701896397 / 18014398509481984)
    num_days := JSNum.fin 252
    num_simulations := JSNum.fin 1000 }

/-- Read `input[name]`. -/
def Input.get (i : Input) : Field → JSNum
  | Field.current_price => i.current_price
  | Field.volatility => i.volatility
  | Field.num_days => i.num_days
  | Field.num_simulations => i.num_simulations

/-- The object spread `{ ...prev, [name]: v }`. -/
def Input.set (prev : Input) (name : Field) (v : JSNum) : Input :=
  match name with
  | Field.current_price => { prev with current_price := v }
  | Field.volatility => { prev with volatility := v }
  | Field.num_days => { prev with num_days := v }
  | Field.num_simulations => { prev with num_simulations := v }

/-- The method `String.prototype.replace` with a one-character string pattern: the first
occurrence only is replaced. -/
def replaceFirst (pat rep : Char) : List Char → List Char
  | [] => []
  | c :: cs => if c = pat then rep :: cs else c :: replaceFirst pat rep cs

/-- Replacement of every occurrence of a character (what `replaceAll` would do). -/
def replaceEvery (pat rep : Char) (cs : List Char) : List Char :=
  cs.map (fun c => if c = pat then rep else c)

/-- Line 30: `const sanitizedValue = value.replace(',', '.')`. -/
def sanitizedValue (value : String) : String :=
  String.mk (replaceFirst ',' '.' value.data)

/-- Line 33: `sanitizedValue === "" ? 0 : parseFloat(sanitizedValue)`. -/
def parsedValue (sanitized : String) : JSNum :=
  if sanitized = "" then JSNum.fin 0 else parseFloat sanitized

/-- Lines 26-40: `handleChange` applied to the `input` state for an event whose target
has the given `name` and `value`. -/
def handleChange (prev : Input) (name : Field) (value : String) : Input :=
  prev.set name (parsedValue (sanitizedValue value))

/-! ## JSON values and the JavaScript operations the component applies to them -/

/-- A JSON value, as produced by `response.json()`.  An object is its list of own
properties in creation order. -/
inductive Json where
  | null
  | bool (b : Bool)
  | num (q : ℚ)
  | str (s : String)
  | arr (items : List Json)
  | obj (props : List (String × Json))

/-- Texts the embedding leaves open: how a finite number prints (`Number::toString`),
and the engine-dependent messages of the two `TypeError`s the code can raise on a
parsed body. -/
structure Host where
  numberToString : ℚ → String
  nullPropertyMessage : String
  toPrimitiveMessage : String

/-- Own-property lookup; when a key occurs twice the later entry is the live one,
as after `JSON.parse`. -/
def lookupProp {α : Type} (key : String) : List (String × α) → Option α
  | [] => none
  | (k, v) :: rest =>
    match lookupProp key rest with
    | some w => some w
    | none => if k = key then some v else none

namespace Json

/-- The abstract operation `ToBoolean`. -/
def truthy : Json → Bool
  | null => false
  | bool b => b
  | num q => decide (q ≠ 0)
  | str s => decide (s ≠ "")
  | arr _ => true
  | obj _ => true

/-- The property read `v.key` for a key that no prototype defines: `TypeError` on
`null`, the own property of an object, `undefined` (`none`) otherwise. -/
def getProp (h : Host) (key : String) : Json → Except String (Option Json)
  | null => Except.error h.nullPropertyMessage
  | obj props => Except.ok (lookupProp key props)
  | _ => Except.ok none

mutual
/-- The abstract operation `ToString`.  An array prints through `Array.prototype.join`; a plain object prints
as `[object Object]` unless an own `toString` property (never callable in parsed JSON)
shadows the inherited method, in which case `OrdinaryToPrimitive` throws. -/
def toStringJS (h : Host) : Json → Except String String
  | null => Except.ok "null"
  | bool b => Except.ok (if b then "true" else "false")
  | num q => Except.ok (h.numberToString q)
  | str s => Except.ok s
  | arr items => joinJS h items
  | obj props =>
    if (lookupProp "toString" props).isSome then Except.error h.toPrimitiveMessage
    else Except.ok "[object Object]"
/-- The method `Array.prototype.join` with the default separator: `null` elements print as the
empty string. -/
def joinJS (h : Host) : List Json → Except String String
  | [] => Except.ok ""
  | [x] => elementJS h x
  | x :: y :: rest =>
    match elementJS h x with
    | Except.error m => Except.error m
    | Except.ok a =>
      match joinJS h (y :: rest) with
      | Except.error m => Except.error m
      | Except.ok b => Except.ok (a ++ "," ++ b)
/-- One element inside `join`. -/
def elementJS (h : Host) : Json → Except String String
  | null => Except.ok ""
  | bool b => Except.ok (if b then "true" else "false")
  | num q => Except.ok (h.numberToString q)
  | str s => Except.ok s
  | arr items => joinJS h items
  | obj props =>
    if (lookupProp "toString" props).isSome then Except.error h.toPrimitiveMessage
    else Except.ok "[object Object]"
end

end Json

/-! ## `handleSimulate` -/

/-- Line 10. -/
def API_URL : String := "/api/simulate"

/-- The arguments of one `fetch` call; `body` is the JSON value denoted by the text
that `JSON.stringify` produced. -/
structure FetchCall where
  url : String
  method : String
  headers : List (String × String)
  body : Json

/-- What `await response.json()` does: yields the parsed body or throws. -/
inductive BodyResult where
  | parsed (value : Json)
  | rejected (message : String)

/-- A response as the code observes it. -/
structure Response where
  status : Nat
  statusText : String
  body : BodyResult

/-- The flag `response.ok`: the status is in the range 200-299. -/
def Response.ok (r : Response) : Bool := decide (200 ≤ r.status) && decide (r.status ≤ 299)

/-- What `await fetch(...)` does: the promise rejects with an error carrying a message
(network failure) or resolves with a response. -/
inductive FetchOutcome where
  | rejected (message : String)
  | resolved (response : Response)

/-- What `JSON.stringify` writes for a Number: a finite number is written as a numeral, `NaN` and
the infinities as `null`. -/
def stringifyNumber : JSNum → Json
  | JSNum.fin q => Json.num q
  | _ => Json.null

/-- Lines 53-58: the value denoted by `JSON.stringify({ prc_actual: ..., ... })`. -/
def requestBody (input : Input) : Json :=
  Json.obj
    [ ("prc_actual", stringifyNumber input.current_price),
      ("volat", stringifyNumber input.volatility),
      ("num_dias", stringifyNumber input.num_days),
      ("num_sims", stringifyNumber input.num_simulations) ]

/-- The component state: the four `useState` cells. -/
structure UIState where
  input : Input
  results : Json
  isLoading : Bool
  error : Option String

/-- The state after the first render. -/
def initialState : UIState :=
  { input := initialInput, results := Json.null, isLoading := false, error := none }

/-- Line 63, the template literal. -/
def statusMessage (r : Response) : String :=
  "Error " ++ toString r.status ++ ": " ++ r.statusText

/-- Lines 61-64: the non-ok branch always throws; the result is the `message` of what
is thrown (the `Error` built from `errorData.detail || ...`, or a `TypeError` raised
on the way). -/
def thrownForErrorBody (h : Host) (r : Response) (errorData : Json) : String :=
  match errorData.getProp h "detail" with
  | Except.error m => m
  | Except.ok detail =>
    let arg : Json :=
      match detail with
      | some d => if d.truthy then d else Json.str (statusMessage r)
      | none => Json.str (statusMessage r)
    match arg.toStringJS h with
    | Except.error m => m
    | Except.ok message => message

/-- Lines 49-67, the `try` block after the call was issued: the value handed to
`setResults`, or the `message` of the error that reaches `catch`. -/
def tryBlock (h : Host) (outcome : FetchOutcome) : Except String Json :=
  match outcome with
  | FetchOutcome.rejected m => Except.error m
  | FetchOutcome.resolved r =>
    if !r.ok then
      match r.body with
      | BodyResult.rejected m => Except.error m
      | BodyResult.parsed errorData => Except.error (thrownForErrorBody h r errorData)
    else
      match r.body with
      | BodyResult.rejected m => Except.error m
      | BodyResult.parsed data => Except.ok data

/-- Line 71: `err.message || "Error al conectar con la API de simulación."`. -/
def catchMessage (message : String) : String :=
  if message ≠ "" then message else "Error al conectar con la API de simulación."

/-- The `fetch` call of lines 49-59. -/
def simulateCall (input : Input) : FetchCall :=
  { url := API_URL
    method := "POST"
    headers := [("Content-Type", "application/json")]
    body := requestBody input }

/-- Lines 43-75: `handleSimulate` run to completion from state `st`, with `net` giving
the outcome of each call.  Returns the final state and the calls issued, in order. -/
def handleSimulate (h : Host) (net : FetchCall → FetchOutcome) (st : UIState) :
    UIState × List FetchCall :=
  let call := simulateCall st.input
  let st1 : UIState := { st with isLoading := true, results := Json.null, error := none }
  let st2 : UIState :=
    match tryBlock h (net call) with
    | Except.ok data => { st1 with results := data }
    | Except.error message => { st1 with error := some (catchMessage message) }
  ({ st2 with isLoading := false }, [call])

/-- Line 136: `{error && <p className="error-message">{error}</p>}` — the text of the
error paragraph, when one is rendered. -/
def shownError (st : UIState) : Option String :=
  match st.error with
  | some e => if e ≠ "" then some e else none
  | none => none

/-! ## `chartData` -/

/-- The fields of a response that `chartData` reads, typed as the wire contract types
them (arrays of numbers).  `ruta_prom` may be absent, which line 79 tests for. -/
structure SimResponse where
  ruta_prom : Option (List ℚ)
  ruta_p5 : List ℚ
  ruta_p95 : List ℚ
  simulaciones : List (List ℚ)

/-- One element of the `data` array: an object with its own properties in creation
order. -/
abbrev Row := List (String × JSNum)

/-- The assignment `row[key] = v`: overwrite an existing property, else add one. -/
def Row.assign (key : String) (v : JSNum) : Row → Row
  | [] => [(key, v)]
  | (k, w) :: rest => if k = key then (k, v) :: rest else (k, w) :: Row.assign key v rest

/-- The read `row[key]`. -/
def Row.read (key : String) : Row → Option JSNum
  | [] => none
  | (k, w) :: rest => if k = key then some w else Row.read key rest

/-- The conversion `Number(xs[i])` on an array of numbers: the element, or `NaN` for the `undefined`
read past the end. -/
def numberAt (xs : List ℚ) (i : Nat) : JSNum :=
  match xs[i]? with
  | some q => JSNum.fin q
  | none => JSNum.nan

/-- The statement `data[i][key] = v`: throws a `TypeError` (`none`) when `data[i]` is
`undefined`. -/
def assignCell (data : List Row) (i : Nat) (key : String) (v : JSNum) : Option (List Row) :=
  match data[i]? with
  | none => none
  | some row => some (data.set i (Row.assign key v row))

/-- The property name built by the template literal of line 96. -/
def simKey (index : Nat) : String := "sim" ++ toString index

/-- Line 85: `Array.from({ length: numSteps }, (_, i) => ({ day: i }))`. -/
def initialRows (numSteps : Nat) : List Row :=
  (List.range numSteps).map (fun (i : Nat) => [("day", JSNum.fin (i : ℚ))])

/-- Lines 89-91: the body of the `for` loop at index `i`. -/
def fillBands (r : SimResponse) (prom : List ℚ) (data : List Row) (i : Nat) :
    Option (List Row) := do
  let d1 ← assignCell data i "avg" (numberAt prom i)
  let d2 ← assignCell d1 i "p5" (numberAt r.ruta_p5 i)
  assignCell d2 i "p95" (numberAt r.ruta_p95 i)

/-- Lines 95-97: the inner `forEach` over one path. -/
def plotPath (index : Nat) (path : List ℚ) (data : List Row) : Option (List Row) :=
  path.enum.foldlM (fun d sp => assignCell d sp.1 (simKey index) (JSNum.fin sp.2)) data

/-- Lines 94-98: the outer `forEach` over `results.simulaciones`. -/
def plotAll (sims : List (List ℚ)) (data : List Row) : Option (List Row) :=
  sims.enum.foldlM (fun d ip => plotPath ip.1 ip.2 d) data

/-- Lines 78-101: the value of the `useMemo`; `none` when building it throws. -/
def chartData (results : Option SimResponse) : Option (List Row) :=
  match results with
  | none => some []
  | some r =>
    match r.ruta_prom with
    | none => some []
    | some prom =>
      let numSteps := prom.length
      match (List.range numSteps).foldlM (fillBands r prom) (initialRows numSteps) with
      | none => none
      | some data => plotAll r.simulaciones data

/-! ## Vocabulary of the statements -/

/-- A host used to evaluate closed examples; none of them prints a number. -/
def sampleHost : Host :=
  { numberToString := fun _ => ""
    nullPropertyMessage := "Cannot read properties of null"
    toPrimitiveMessage := "Cannot convert object to primitive value" }

/-- A network on which every `fetch` rejects. -/
def offline : FetchCall → FetchOutcome := fun _ => FetchOutcome.rejected "Failed to fetch"

/-- A network on which every `fetch` resolves with the response `r`. -/
def answering (r : Response) : FetchCall → FetchOutcome := fun _ => FetchOutcome.resolved r

/-- The body handed to `setResults` when the outcome is a 2xx response with a parsable
body; `none` for every other outcome (network failure, non-2xx, unparsable body). -/
def succeeded : FetchOutcome → Option Json
  | FetchOutcome.resolved r =>
    match r.body with
    | BodyResult.parsed data => if r.ok then some data else none
    | BodyResult.rejected _ => none
  | FetchOutcome.rejected _ => none

/-- The comparison `v <= c` of a Number with a finite constant (false on `NaN`). -/
def JSNum.leConst (v : JSNum) (c : ℚ) : Bool :=
  match v with
  | JSNum.fin q => decide (q ≤ c)
  | JSNum.inf neg => neg
  | JSNum.nan => false

/-- The comparison `v < c` of a Number with a finite constant (false on `NaN`). -/
def JSNum.ltConst (v : JSNum) (c : ℚ) : Bool :=
  match v with
  | JSNum.fin q => decide (q < c)
  | JSNum.inf neg => neg
  | JSNum.nan => false

/-- The `InvalidParameter` condition of the engine specification (section 4.2):
`current_price <= 0`, `volatility < 0`, `num_days < 1` or `num_simulations < 1`. -/
def invalidRequest (i : Input) : Bool :=
  i.current_price.leConst 0 || i.volatility.ltConst 0 || i.num_days.ltConst 1 ||
    i.num_simulations.ltConst 1

/-- A sequence of `handleChange` events applied in order. -/
def applyEdits (i : Input) (edits : List (Field × String)) : Input :=
  edits.foldl (fun acc e => handleChange acc e.1 e.2) i

/-- The text of the last edit made to field `f`, if any. -/
def lastEdit (f : Field) : List (Field × String) → Option String
  | [] => none
  | (g, text) :: rest =>
    match lastEdit f rest with
    | some t => some t
    | none => if g = f then some text else none

/-- The number a field holds after a sequence of edits, read off the edits alone: for
the last text typed into it, 0 when the sanitized text is empty and `parseFloat` of
the sanitized text otherwise; the old value when the field was not edited. -/
def finalValue (i : Input) (edits : List (Field × String)) (f : Field) : JSNum :=
  match lastEdit f edits with
  | some text =>
    if sanitizedValue text = "" then JSNum.fin 0 else parseFloat (sanitizedValue text)
  | none => i.get f

/-- Two characters that are equal, or a comma facing a period. -/
def CommaOrSame (c c' : Char) : Prop := c = c' ∨ (c = ',' ∧ c' = '.')

/-- Two texts that are equal up to a period, after which a comma of the first may face
a period of the second. -/
inductive AgreeToPeriod : List Char → List Char → Prop
  | same (l : List Char) : AgreeToPeriod l l
  | step (c : Char) {a b : List Char} : AgreeToPeriod a b → AgreeToPeriod (c :: a) (c :: b)
  | period {a b : List Char} : List.Forall₂ CommaOrSame a b →
      AgreeToPeriod ('.' :: a) ('.' :: b)

/-- The read `data[j][key]` on the built array (`none` for `undefined`). -/
def cell (data : List Row) (j : Nat) (key : String) : Option JSNum :=
  match data[j]? with
  | some row => Row.read key row
  | none => none

/-- What lines 89-91 write under `key` in row `i`, if anything. -/
def bandValue (r : SimResponse) (prom : List ℚ) (i : Nat) (key : String) : Option JSNum :=
  if key = "avg" then some (numberAt prom i)
  else if key = "p5" then some (numberAt r.ruta_p5 i)
  else if key = "p95" then some (numberAt r.ruta_p95 i)
  else none

/-- A response with two days and two paths, used to evaluate closed examples. -/
def sampleResponse : SimResponse :=
  { ruta_prom := some [1, 2]
    ruta_p5 := [3, 4]
    ruta_p95 := [5, 6]
    simulaciones := [[7, 8], [9, 10]] }

/-- A response that breaks the shape invariant: the three bands have one entry, the
only path has two. -/
def raggedResponse : SimResponse :=
  { ruta_prom := some [1]
    ruta_p5 := [1]
    ruta_p95 := [1]
    simulaciones := [[1, 2]] }

/-! ## The model on sample inputs -/

theorem parseFloat_samples :
    parseFloat "1.5" = JSNum.fin (3 / 2) ∧
      parseFloat "  -12.5e-1xyz" = JSNum.fin (-5 / 4) ∧
      parseFloat "1.e2" = JSNum.fin 100 ∧
      parseFloat ".5" = JSNum.fin (1 / 2) ∧
      parseFloat "1e" = JSNum.fin 1 ∧
      parseFloat "1e+" = JSNum.fin 1 ∧
      parseFloat "1..5" = JSNum.fin 1 ∧
      parseFloat "1.2,3" = JSNum.fin (5404319552844595 / 4503599627370496) ∧
      parseFloat "0.2" = initialInput.volatility ∧
      parseFloat "9007199254740993" = JSNum.fin 9007199254740992 ∧
      parseFloat "1.7976931348623157e308" = JSNum.fin ((2 ^ 53 - 1) * 2 ^ 971) ∧
      parseFloat "1.7976931348623159e308" = JSNum.inf false ∧
      parseFloat "1e400" = JSNum.inf false ∧
      parseFloat "-1e400" = JSNum.inf true ∧
      parseFloat "1e-400" = JSNum.fin 0 ∧
      parseFloat "5e-324" = JSNum.fin ((2 : ℚ) ^ (-1074 : Int)) ∧
      parseFloat "12px" = JSNum.fin 12 ∧
      parseFloat "-Infinityx" = JSNum.inf true ∧
      parseFloat "abc" = JSNum.nan ∧
      parseFloat "." = JSNum.nan ∧
      parseFloat "-" = JSNum.nan ∧
      parseFloat "" = JSNum.nan := by
  refine ⟨?_, ?_, ?_, ?_, ?_, ?_, ?_, ?_, ?_, ?_, ?_, ?_, ?_, ?_, ?_, ?_, ?_, ?_, ?_, ?_,
    ?_, ?_⟩ <;> decide!

theorem handleChange_samples :
    (handleChange initialInput Field.num_days "1,5").num_days = JSNum.fin (3 / 2) ∧
      (handleChange initialInput Field.volatility "0,25").volatility = JSNum.fin (1 / 4) ∧
      (handleChange initialInput Field.num_days "30").num_days = JSNum.fin 30 ∧
      (handleChange initialInput Field.num_days "").num_days = JSNum.fin 0 := by
  refine ⟨?_, ?_, ?_, ?_⟩ <;> decide!

theorem chartData_samples :
    chartData none = some [] ∧
      chartData (some sampleResponse) =
        some
          [ [ ("day", JSNum.fin 0), ("avg", JSNum.fin 1), ("p5", JSNum.fin 3),
              ("p95", JSNum.fin 5), ("sim0", JSNum.fin 7), ("sim1", JSNum.fin 9) ],
            [ ("day", JSNum.fin 1), ("avg", JSNum.fin 2), ("p5", JSNum.fin 4),
              ("p95", JSNum.fin 6), ("sim0", JSNum.fin 8), ("sim1", JSNum.fin 10) ] ] ∧
      chartData (some ⟨some [1, 2], [1], [], [[1]]⟩) =
        some
          [ [ ("day", JSNum.fin 0), ("avg", JSNum.fin 1), ("p5", JSNum.fin 1),
              ("p95", JSNum.nan), ("sim0", JSNum.fin 1) ],
            [ ("day", JSNum.fin 1), ("avg", JSNum.fin 2), ("p5", JSNum.nan),
              ("p95", JSNum.nan) ] ] := by
  refine ⟨?_, ?_, ?_⟩ <;> decide!

/-! ## Auxiliary facts -/

theorem string_append_ne_empty (a b : String) (h : a ≠ "") : a ++ b ≠ "" := by
  intro hab
  apply h
  have hd : (a ++ b).data = "".data := by rw [hab]
  rw [String.data_append] at hd
  have ha : a.data = [] := (List.append_eq_nil.mp hd).1
  exact String.ext ha

theorem statusMessage_ne_empty (r : Response) : statusMessage r ≠ "" := by
  unfold statusMessage
  rw [String.append_assoc, String.append_assoc]
  exact string_append_ne_empty _ _ (by decide)

theorem catchMessage_ne_empty (m : String) : catchMessage m ≠ "" := by
  unfold catchMessage
  split
  · assumption
  · decide

theorem catchMessage_of_ne_empty (m : String) (h : m ≠ "") : catchMessage m = m := by
  unfold catchMessage
  simp [h]

theorem tryBlock_eq_ok_iff (h : Host) (o : FetchOutcome) (data : Json) :
    tryBlock h o = Except.ok data ↔ succeeded o = some data := by
  cases o with
  | rejected m => simp [tryBlock, succeeded]
  | resolved r =>
    cases hb : r.body with
    | rejected m => cases hk : r.ok <;> simp [tryBlock, succeeded, hb, hk]
    | parsed v => cases hk : r.ok <;> simp [tryBlock, succeeded, hb, hk]

theorem tryBlock_error_of_not_succeeded (h : Host) (o : FetchOutcome)
    (hs : succeeded o = none) : ∃ m, tryBlock h o = Except.error m := by
  cases ht : tryBlock h o with
  | error m => exact ⟨m, rfl⟩
  | ok data =>
    have := (tryBlock_eq_ok_iff h o data).mp ht
    rw [hs] at this
    cases this

theorem applyEdits_append (i : Input) (xs ys : List (Field × String)) :
    applyEdits i (xs ++ ys) = applyEdits (applyEdits i xs) ys := by
  simp [applyEdits, List.foldl_append]

theorem get_set (i : Input) (f g : Field) (v : JSNum) :
    (i.set g v).get f = if g = f then v else i.get f := by
  cases f <;> cases g <;> simp [Input.set, Input.get]

theorem get_applyEdits (edits : List (Field × String)) (i : Input) (f : Field) :
    (applyEdits i edits).get f = finalValue i edits f := by
  induction edits generalizing i with
  | nil => simp [applyEdits, finalValue, lastEdit]
  | cons e rest ih =>
    have hstep : applyEdits i (e :: rest) = applyEdits (handleChange i e.1 e.2) rest := rfl
    rw [hstep, ih]
    obtain ⟨g, text⟩ := e
    unfold finalValue
    simp only [lastEdit]
    cases hl : lastEdit f rest with
    | some t => simp
    | none =>
      simp only [handleChange, get_set, parsedValue]
      by_cases hg : g = f <;> simp [hg]

theorem replaceFirst_of_not_mem (pat rep : Char) (cs : List Char) (h : pat ∉ cs) :
    replaceFirst pat rep cs = cs := by
  induction cs with
  | nil => rfl
  | cons c rest ih =>
    have hc : ¬ c = pat := fun e => h (e ▸ List.mem_cons_self _ _)
    have hr : pat ∉ rest := fun m => h (List.mem_cons_of_mem _ m)
    simp [replaceFirst, hc, ih hr]

theorem replaceEvery_of_not_mem (pat rep : Char) (cs : List Char) (h : pat ∉ cs) :
    replaceEvery pat rep cs = cs := by
  induction cs with
  | nil => rfl
  | cons c rest ih =>
    have hc : ¬ c = pat := fun e => h (e ▸ List.mem_cons_self _ _)
    have hr : pat ∉ rest := fun m => h (List.mem_cons_of_mem _ m)
    have ih' := ih hr
    unfold replaceEvery at ih' ⊢
    simp [hc, ih']

/-- With at most one occurrence of the pattern, replacing the first occurrence and
replacing every occurrence agree. -/
theorem replaceFirst_eq_replaceEvery (pat rep : Char) (cs : List Char)
    (h : cs.count pat ≤ 1) : replaceFirst pat rep cs = replaceEvery pat rep cs := by
  induction cs with
  | nil => rfl
  | cons c rest ih =>
    by_cases hc : c = pat
    · subst hc
      have hcount : rest.count c = 0 := by
        rw [List.count_cons_self] at h
        omega
      have hnot : c ∉ rest := List.count_eq_zero.mp hcount
      have hr := replaceEvery_of_not_mem c rep rest hnot
      unfold replaceEvery at hr ⊢
      simp [replaceFirst, hr]
    · have hcount : rest.count pat ≤ 1 := by
        rw [List.count_cons_of_ne (fun e => hc e.symm)] at h
        exact h
      have ih' := ih hcount
      unfold replaceEvery at ih' ⊢
      simp [replaceFirst, hc, ih']

/-- On a text with at most one comma `sanitizedValue` is the text with its commas
replaced by periods. -/
theorem sanitizedValue_eq_replaceEvery (value : String) (h : value.data.count ',' ≤ 1) :
    sanitizedValue value = String.mk (replaceEvery ',' '.' value.data) := by
  unfold sanitizedValue
  rw [replaceFirst_eq_replaceEvery _ _ _ h]

theorem lastEdit_snoc (f g : Field) (text : String) (edits : List (Field × String)) :
    lastEdit f (edits ++ [(g, text)]) = if g = f then some text else lastEdit f edits := by
  induction edits with
  | nil => by_cases hg : g = f <;> simp [lastEdit, hg]
  | cons e rest ih =>
    obtain ⟨g', text'⟩ := e
    have hstep : lastEdit f ((g', text') :: rest ++ [(g, text)]) =
        match lastEdit f (rest ++ [(g, text)]) with
        | some t => some t
        | none => if g' = f then some text' else none := rfl
    rw [hstep, ih]
    by_cases hg : g = f
    · simp [hg]
    · simp only [hg, if_false]
      rfl

theorem finalValue_snoc_same (i : Input) (edits : List (Field × String)) (f : Field)
    (text : String) :
    finalValue i (edits ++ [(f, text)]) f =
      if sanitizedValue text = "" then JSNum.fin 0 else parseFloat (sanitizedValue text) := by
  simp [finalValue, lastEdit_snoc]

theorem finalValue_snoc_other (i : Input) (edits : List (Field × String)) (f g : Field)
    (text : String) (hg : g ≠ f) :
    finalValue i (edits ++ [(g, text)]) f = finalValue i edits f := by
  simp [finalValue, lastEdit_snoc, hg]

theorem posted_body_after_edits (h : Host) (net : FetchCall → FetchOutcome)
    (st : UIState) (edits : List (Field × String)) :
    (handleSimulate h net { st with input := applyEdits st.input edits }).2.map
        FetchCall.body =
      [ Json.obj
          [ ("prc_actual", stringifyNumber (finalValue st.input edits Field.current_price)),
            ("volat", stringifyNumber (finalValue st.input edits Field.volatility)),
            ("num_dias", stringifyNumber (finalValue st.input edits Field.num_days)),
            ("num_sims",
              stringifyNumber (finalValue st.input edits Field.num_simulations)) ] ] := by
  simp only [← get_applyEdits]
  rfl

/-! ## The first comma and the parsed number -/

theorem commaOrSame_isDigit {c c' : Char} (h : CommaOrSame c c') :
    c.isDigit = c'.isDigit := by
  rcases h with rfl | ⟨rfl, rfl⟩
  · rfl
  · decide

theorem forall₂_replaceEvery (cs : List Char) :
    List.Forall₂ CommaOrSame cs (replaceEvery ',' '.' cs) := by
  induction cs with
  | nil => exact List.Forall₂.nil
  | cons c rest ih =>
    unfold replaceEvery at ih ⊢
    rw [List.map_cons]
    refine List.Forall₂.cons ?_ ih
    by_cases hc : c = ','
    · simp [CommaOrSame, hc]
    · simp [CommaOrSame, hc]

theorem agree_replaceFirst_replaceEvery (cs : List Char) :
    AgreeToPeriod (replaceFirst ',' '.' cs) (replaceEvery ',' '.' cs) := by
  induction cs with
  | nil => exact AgreeToPeriod.same []
  | cons c rest ih =>
    by_cases hc : c = ','
    · have h1 : replaceFirst ',' '.' (c :: rest) = '.' :: rest := by simp [replaceFirst, hc]
      have h2 : replaceEvery ',' '.' (c :: rest) = '.' :: replaceEvery ',' '.' rest := by
        simp [replaceEvery, hc]
      rw [h1, h2]
      exact AgreeToPeriod.period (forall₂_replaceEvery rest)
    · have h1 : replaceFirst ',' '.' (c :: rest) = c :: replaceFirst ',' '.' rest := by
        simp [replaceFirst, hc]
      have h2 : replaceEvery ',' '.' (c :: rest) = c :: replaceEvery ',' '.' rest := by
        simp [replaceEvery, hc]
      rw [h1, h2]
      exact AgreeToPeriod.step c ih

theorem forall₂_takeWhile_isDigit {a b : List Char} (h : List.Forall₂ CommaOrSame a b) :
    a.takeWhile Char.isDigit = b.takeWhile Char.isDigit ∧
      List.Forall₂ CommaOrSame (a.dropWhile Char.isDigit) (b.dropWhile Char.isDigit) := by
  induction h with
  | nil => exact ⟨rfl, List.Forall₂.nil⟩
  | @cons c c' a b hc hab ih =>
    have hd := commaOrSame_isDigit hc
    cases hdc : c.isDigit with
    | true =>
      have hdc' : c'.isDigit = true := by rw [← hd, hdc]
      rcases hc with rfl | ⟨rfl, rfl⟩
      · simp only [List.takeWhile_cons, List.dropWhile_cons, hdc, if_true]
        exact ⟨by rw [ih.1], ih.2⟩
      · exact absurd hdc (by decide)
    | false =>
      have hdc' : c'.isDigit = false := by rw [← hd, hdc]
      simp only [List.takeWhile_cons, List.dropWhile_cons, hdc, hdc']
      exact ⟨rfl, List.Forall₂.cons hc hab⟩

theorem forall₂_splitSign {a b : List Char} (h : List.Forall₂ CommaOrSame a b) :
    (splitSign a).1 = (splitSign b).1 ∧
      List.Forall₂ CommaOrSame (splitSign a).2 (splitSign b).2 := by
  cases h with
  | nil => exact ⟨rfl, List.Forall₂.nil⟩
  | @cons c c' a b hc hab =>
    rcases hc with rfl | ⟨rfl, rfl⟩
    · by_cases hp : c = '+'
      · subst hp
        exact ⟨rfl, hab⟩
      · by_cases hm : c = '-'
        · subst hm
          exact ⟨rfl, hab⟩
        · have e1 : ∀ l : List Char, splitSign (c :: l) = (false, c :: l) := by
            intro l
            unfold splitSign
            split
            · rename_i heq; exact absurd (List.cons.inj heq).1 (fun e => hp e)
            · rename_i heq; exact absurd (List.cons.inj heq).1 (fun e => hm e)
            · rfl
          rw [e1, e1]
          exact ⟨rfl, List.Forall₂.cons (Or.inl rfl) hab⟩
    · exact ⟨rfl, List.Forall₂.cons (Or.inr ⟨rfl, rfl⟩) hab⟩

theorem forall₂_parseExponent {a b : List Char} (h : List.Forall₂ CommaOrSame a b) :
    parseExponent a = parseExponent b := by
  cases h with
  | nil => rfl
  | @cons c c' a b hc hab =>
    rcases hc with rfl | ⟨rfl, rfl⟩
    · obtain ⟨hs1, hs2⟩ := forall₂_splitSign hab
      have ht := (forall₂_takeWhile_isDigit hs2).1
      simp only [parseExponent, hs1, ht]
    · rfl

theorem splitSign_cons_of_ne (c : Char) (l : List Char) (hp : c ≠ '+') (hm : c ≠ '-') :
    splitSign (c :: l) = (false, c :: l) := by
  unfold splitSign
  split
  · rename_i heq; exact absurd (List.cons.inj heq).1 hp
  · rename_i heq; exact absurd (List.cons.inj heq).1 hm
  · rfl

theorem agree_dropWhile_space {a b : List Char} (h : AgreeToPeriod a b) :
    AgreeToPeriod (a.dropWhile isStrWhiteSpaceChar) (b.dropWhile isStrWhiteSpaceChar) := by
  induction h with
  | same l => exact AgreeToPeriod.same _
  | step c hab ih =>
    cases hc : isStrWhiteSpaceChar c with
    | true =>
      simp only [List.dropWhile_cons, hc, if_true]
      exact ih
    | false =>
      simp only [List.dropWhile_cons, hc]
      exact AgreeToPeriod.step c hab
  | period hab =>
    have hdot : isStrWhiteSpaceChar '.' = false := by decide
    simp only [List.dropWhile_cons, hdot]
    exact AgreeToPeriod.period hab

theorem agree_splitSign {a b : List Char} (h : AgreeToPeriod a b) :
    (splitSign a).1 = (splitSign b).1 ∧ AgreeToPeriod (splitSign a).2 (splitSign b).2 := by
  cases h with
  | same l => exact ⟨rfl, AgreeToPeriod.same _⟩
  | step c hab =>
    by_cases hp : c = '+'
    · subst hp
      exact ⟨rfl, hab⟩
    · by_cases hm : c = '-'
      · subst hm
        exact ⟨rfl, hab⟩
      · rw [splitSign_cons_of_ne c _ hp hm, splitSign_cons_of_ne c _ hp hm]
        exact ⟨rfl, AgreeToPeriod.step c hab⟩
  | period hab => exact ⟨rfl, AgreeToPeriod.period hab⟩

theorem agree_isPrefixOf {a b : List Char} (h : AgreeToPeriod a b) :
    ∀ p : List Char, '.' ∉ p → p.isPrefixOf a = p.isPrefixOf b := by
  induction h with
  | same l => intro p _; rfl
  | step c hab ih =>
    intro p hp
    cases p with
    | nil => rfl
    | cons d p' =>
      simp only [List.isPrefixOf]
      rw [ih p' (fun m => hp (List.mem_cons_of_mem _ m))]
  | period hab =>
    intro p hp
    cases p with
    | nil => rfl
    | cons d p' =>
      have hd : d ≠ '.' := fun e => hp (e ▸ List.mem_cons_self _ _)
      have hb : (d == '.') = false := by simp [hd]
      simp only [List.isPrefixOf, hb, Bool.false_and]

theorem agree_takeWhile_isDigit {a b : List Char} (h : AgreeToPeriod a b) :
    a.takeWhile Char.isDigit = b.takeWhile Char.isDigit ∧
      AgreeToPeriod (a.dropWhile Char.isDigit) (b.dropWhile Char.isDigit) := by
  induction h with
  | same l => exact ⟨rfl, AgreeToPeriod.same _⟩
  | step c hab ih =>
    cases hc : c.isDigit with
    | true =>
      simp only [List.takeWhile_cons, List.dropWhile_cons, hc, if_true]
      exact ⟨by rw [ih.1], ih.2⟩
    | false =>
      simp only [List.takeWhile_cons, List.dropWhile_cons, hc]
      exact ⟨rfl, AgreeToPeriod.step c hab⟩
  | period hab =>
    have hdot : Char.isDigit '.' = false := by decide
    simp only [List.takeWhile_cons, List.dropWhile_cons, hdot]
    exact ⟨rfl, AgreeToPeriod.period hab⟩

theorem agree_parseExponent {a b : List Char} (h : AgreeToPeriod a b) :
    parseExponent a = parseExponent b := by
  cases h with
  | same l => rfl
  | step c hab =>
    obtain ⟨hs1, hs2⟩ := agree_splitSign hab
    have ht := (agree_takeWhile_isDigit hs2).1
    simp only [parseExponent, hs1, ht]
  | period hab => rfl

theorem parseAfterInt_cons_of_ne (ds : List Char) (c : Char) (l : List Char)
    (hc : c ≠ '.') :
    parseAfterInt ds (c :: l) =
      if ds.isEmpty then none else some (digitsVal ds, parseExponent (c :: l)) := by
  unfold parseAfterInt
  split
  · rename_i heq; exact absurd (List.cons.inj heq).1 hc
  · rfl

theorem agree_parseAfterInt (ds : List Char) {a b : List Char} (h : AgreeToPeriod a b) :
    parseAfterInt ds a = parseAfterInt ds b := by
  cases h with
  | same l => rfl
  | step c hab =>
    by_cases hc : c = '.'
    · subst hc
      obtain ⟨hfrac, hr3⟩ := agree_takeWhile_isDigit hab
      simp only [parseAfterInt, hfrac, agree_parseExponent hr3]
    · rw [parseAfterInt_cons_of_ne ds c _ hc, parseAfterInt_cons_of_ne ds c _ hc,
        agree_parseExponent (AgreeToPeriod.step c hab)]
  | period hab =>
    obtain ⟨hfrac, hr3⟩ := forall₂_takeWhile_isDigit hab
    simp only [parseAfterInt, hfrac, forall₂_parseExponent hr3]

theorem agree_parseUnsigned {a b : List Char} (h : AgreeToPeriod a b) :
    parseUnsigned a = parseUnsigned b := by
  obtain ⟨hint, hrest⟩ := agree_takeWhile_isDigit h
  unfold parseUnsigned
  rw [hint, agree_parseAfterInt _ hrest]

theorem agree_parseFloat {a b : List Char} (h : AgreeToPeriod a b) :
    parseFloat (String.mk a) = parseFloat (String.mk b) := by
  obtain ⟨hs1, hs2⟩ := agree_splitSign (agree_dropWhile_space h)
  have hinf := agree_isPrefixOf hs2 "Infinity".data (by decide)
  have hun := agree_parseUnsigned hs2
  simp only [parseFloat, hs1, hinf, hun]

/-- The number `handleChange` stores does not depend on the commas after the first:
it is the number step 2 computes from the text with every comma replaced. -/
theorem parsedValue_sanitizedValue (value : String) :
    parsedValue (sanitizedValue value) =
      parsedValue (String.mk (replaceEvery ',' '.' value.data)) := by
  have hagree := agree_replaceFirst_replaceEvery value.data
  have hempty : (sanitizedValue value = "") ↔
      (String.mk (replaceEvery ',' '.' value.data) = "") := by
    unfold sanitizedValue
    cases hv : value.data with
    | nil => simp [replaceFirst, replaceEvery]
    | cons c rest =>
      constructor
      · intro h1
        have := congrArg String.data h1
        by_cases hc : c = ','
        · simp [replaceFirst, hc] at this
        · simp [replaceFirst, hc] at this
      · intro h1
        have := congrArg String.data h1
        simp [replaceEvery] at this
  unfold parsedValue
  by_cases h1 : sanitizedValue value = ""
  · rw [if_pos h1, if_pos (hempty.mp h1)]
  · rw [if_neg h1, if_neg (fun h2 => h1 (hempty.mpr h2))]
    exact agree_parseFloat hagree

/-! ## `chartData`: auxiliary facts -/

theorem digitVal_digitChar (k : Nat) (hk : k < 10) : digitVal (Nat.digitChar k) = k := by
  interval_cases k <;> rfl

theorem toDigitsCore_append (fuel : Nat) :
    ∀ (n : Nat) (ds : List Char),
      Nat.toDigitsCore 10 fuel n ds = Nat.toDigitsCore 10 fuel n [] ++ ds := by
  induction fuel with
  | zero => intro n ds; simp [Nat.toDigitsCore]
  | succ fuel ih =>
    intro n ds
    simp only [Nat.toDigitsCore]
    by_cases hn : n / 10 = 0
    · simp [hn]
    · simp only [hn, if_false]
      rw [ih (n / 10) (Nat.digitChar (n % 10) :: ds), ih (n / 10) [Nat.digitChar (n % 10)]]
      simp

theorem digitsVal_append_singleton (l : List Char) (c : Char) :
    digitsVal (l ++ [c]) = 10 * digitsVal l + digitVal c := by
  simp [digitsVal, List.foldl_append]

theorem digitsVal_toDigitsCore (fuel : Nat) :
    ∀ n : Nat, n < fuel → digitsVal (Nat.toDigitsCore 10 fuel n []) = n := by
  induction fuel with
  | zero => intro n hn; omega
  | succ fuel ih =>
    intro n hn
    simp only [Nat.toDigitsCore]
    by_cases hz : n / 10 = 0
    · simp only [hz, if_true]
      have hlt : n % 10 < 10 := Nat.mod_lt _ (by decide)
      have hv : digitsVal [Nat.digitChar (n % 10)] = digitVal (Nat.digitChar (n % 10)) := by
        simp [digitsVal]
      rw [hv, digitVal_digitChar _ hlt]
      omega
    · simp only [hz, if_false]
      rw [toDigitsCore_append, digitsVal_append_singleton, ih (n / 10) (by omega),
        digitVal_digitChar _ (Nat.mod_lt _ (by decide))]
      omega

theorem digitsVal_toString (n : Nat) : digitsVal (toString n).data = n := by
  show digitsVal (Nat.toDigits 10 n) = n
  exact digitsVal_toDigitsCore (n + 1) n (Nat.lt_succ_self n)

theorem simKey_injective (k k' : Nat) (h : simKey k = simKey k') : k = k' := by
  unfold simKey at h
  have hd : ("sim" ++ toString k).data = ("sim" ++ toString k').data := by rw [h]
  rw [String.data_append, String.data_append] at hd
  have ht : (toString k).data = (toString k').data := List.append_cancel_left hd
  have := congrArg digitsVal ht
  rwa [digitsVal_toString, digitsVal_toString] at this

theorem simKey_ne_fixed (k : Nat) :
    simKey k ≠ "day" ∧ simKey k ≠ "avg" ∧ simKey k ≠ "p5" ∧ simKey k ≠ "p95" := by
  have hd : (simKey k).data = 's' :: 'i' :: 'm' :: (toString k).data := by
    unfold simKey
    rw [String.data_append]
    rfl
  refine ⟨?_, ?_, ?_, ?_⟩ <;>
  · intro h
    rw [h] at hd
    revert hd
    simp

theorem read_assign (key K : String) (v : JSNum) (row : Row) :
    Row.read K (Row.assign key v row) = if K = key then some v else Row.read K row := by
  induction row with
  | nil =>
    by_cases hk : key = K
    · simp [Row.assign, Row.read, hk]
    · have hk2 : ¬ K = key := fun e => hk e.symm
      simp [Row.assign, Row.read, hk, hk2]
  | cons kw rest ih =>
    obtain ⟨k, w⟩ := kw
    by_cases hk : k = key
    · subst hk
      by_cases hK : k = K
      · simp [Row.assign, Row.read, hK]
      · have hK2 : ¬ K = k := fun e => hK e.symm
        simp [Row.assign, Row.read, hK, hK2]
    · by_cases hK : k = K
      · subst hK
        simp [Row.assign, Row.read, hk]
      · simp [Row.assign, Row.read, hk, hK, ih]

theorem assignCell_spec (data : List Row) (i : Nat) (key : String) (v : JSNum)
    (hi : i < data.length) :
    ∃ data', assignCell data i key v = some data' ∧ data'.length = data.length ∧
      ∀ (j : Nat) (K : String),
        cell data' j K = if j = i ∧ K = key then some v else cell data j K := by
  have hget : data[i]? = some data[i] := List.getElem?_eq_getElem hi
  refine ⟨data.set i (Row.assign key v data[i]), ?_, by simp, ?_⟩
  · simp [assignCell, hget]
  · intro j K
    unfold cell
    rw [List.getElem?_set]
    by_cases hji : i = j
    · subst hji
      simp only [hi, if_true, true_and, hget, read_assign]
    · have hji2 : ¬ j = i := fun e => hji e.symm
      simp [hji, hji2]

theorem plotPath_from (index : Nat) :
    ∀ (path : List ℚ) (s : Nat) (data : List Row), s + path.length ≤ data.length →
      ∃ data',
        (path.enumFrom s).foldlM
            (fun d sp => assignCell d sp.1 (simKey index) (JSNum.fin sp.2)) data =
          some data' ∧
        data'.length = data.length ∧
        (∀ (j : Nat) (K : String), K ≠ simKey index → cell data' j K = cell data j K) ∧
        (∀ j : Nat, j < s → cell data' j (simKey index) = cell data j (simKey index)) ∧
        (∀ (j : Nat) (p : ℚ), path[j]? = some p →
          cell data' (s + j) (simKey index) = some (JSNum.fin p)) := by
  intro path
  induction path with
  | nil =>
    intro s data _
    exact ⟨data, rfl, rfl, fun _ _ _ => rfl, fun _ _ => rfl, fun j p hp => by simp at hp⟩
  | cons q rest ih =>
    intro s data hlen
    simp only [List.length_cons] at hlen
    obtain ⟨d1, hd1, hl1, hc1⟩ :=
      assignCell_spec data s (simKey index) (JSNum.fin q) (by omega)
    obtain ⟨d2, hd2, hl2, hother, hbelow, hat⟩ := ih (s + 1) d1 (by omega)
    refine ⟨d2, ?_, by omega, ?_, ?_, ?_⟩
    · simp only [List.enumFrom_cons, List.foldlM_cons, hd1]
      exact hd2
    · intro j K hK
      rw [hother j K hK, hc1]
      simp [hK]
    · intro j hj
      rw [hbelow j (by omega), hc1]
      have : ¬ j = s := by omega
      simp [this]
    · intro j p hp
      cases j with
      | zero =>
        simp only [List.getElem?_cons_zero, Option.some.injEq] at hp
        subst hp
        rw [Nat.add_zero, hbelow s (by omega), hc1]
        simp
      | succ j =>
        simp only [List.getElem?_cons_succ] at hp
        have := hat j p hp
        rwa [show s + 1 + j = s + (j + 1) by omega] at this

theorem plotPath_spec (index : Nat) (path : List ℚ) (data : List Row)
    (hlen : path.length ≤ data.length) :
    ∃ data', plotPath index path data = some data' ∧ data'.length = data.length ∧
      (∀ (j : Nat) (K : String), K ≠ simKey index → cell data' j K = cell data j K) ∧
      (∀ (j : Nat) (p : ℚ), path[j]? = some p →
        cell data' j (simKey index) = some (JSNum.fin p)) := by
  obtain ⟨d, hd, hl, hother, _, hat⟩ := plotPath_from index path 0 data (by omega)
  refine ⟨d, hd, hl, hother, ?_⟩
  intro j p hp
  have := hat j p hp
  rwa [Nat.zero_add] at this

theorem plotAll_from :
    ∀ (sims : List (List ℚ)) (s : Nat) (data : List Row),
      (∀ path ∈ sims, path.length ≤ data.length) →
      ∃ data',
        (sims.enumFrom s).foldlM (fun d ip => plotPath ip.1 ip.2 d) data = some data' ∧
        data'.length = data.length ∧
        (∀ (j : Nat) (K : String), (∀ k : Nat, s ≤ k → K ≠ simKey k) →
          cell data' j K = cell data j K) ∧
        (∀ (k : Nat) (path : List ℚ) (j : Nat) (p : ℚ), sims[k]? = some path →
          path[j]? = some p → cell data' j (simKey (s + k)) = some (JSNum.fin p)) := by
  intro sims
  induction sims with
  | nil =>
    intro s data _
    exact ⟨data, rfl, rfl, fun _ _ _ => rfl, fun k path j p hk => by simp at hk⟩
  | cons path0 rest ih =>
    intro s data hlen
    obtain ⟨d1, hd1, hl1, hother1, hat1⟩ :=
      plotPath_spec s path0 data (hlen path0 (List.mem_cons_self _ _))
    obtain ⟨d2, hd2, hl2, hother2, hat2⟩ := ih (s + 1) d1 (by
      intro path hp
      rw [hl1]
      exact hlen path (List.mem_cons_of_mem _ hp))
    refine ⟨d2, ?_, by omega, ?_, ?_⟩
    · simp only [List.enumFrom_cons, List.foldlM_cons, hd1]
      exact hd2
    · intro j K hK
      rw [hother2 j K (fun k hk => hK k (by omega)), hother1 j K (hK s (le_refl s))]
    · intro k path j p hk hp
      cases k with
      | zero =>
        simp only [List.getElem?_cons_zero, Option.some.injEq] at hk
        subst hk
        rw [Nat.add_zero, hother2 j (simKey s) (fun k hk e => by
          have := simKey_injective _ _ e
          omega)]
        exact hat1 j p hp
      | succ k =>
        simp only [List.getElem?_cons_succ] at hk
        have := hat2 k path j p hk hp
        rwa [show s + 1 + k = s + (k + 1) by omega] at this

theorem plotAll_spec (sims : List (List ℚ)) (data : List Row)
    (hlen : ∀ path ∈ sims, path.length ≤ data.length) :
    ∃ data', plotAll sims data = some data' ∧ data'.length = data.length ∧
      (∀ (j : Nat) (K : String), (∀ k : Nat, K ≠ simKey k) →
        cell data' j K = cell data j K) ∧
      (∀ (k : Nat) (path : List ℚ) (j : Nat) (p : ℚ), sims[k]? = some path →
        path[j]? = some p → cell data' j (simKey k) = some (JSNum.fin p)) := by
  obtain ⟨d, hd, hl, hother, hat⟩ := plotAll_from sims 0 data hlen
  refine ⟨d, hd, hl, fun j K hK => hother j K (fun k _ => hK k), ?_⟩
  intro k path j p hk hp
  have := hat k path j p hk hp
  rwa [Nat.zero_add] at this

theorem fillBands_spec (r : SimResponse) (prom : List ℚ) (data : List Row) (i : Nat)
    (hi : i < data.length) :
    ∃ data', fillBands r prom data i = some data' ∧ data'.length = data.length ∧
      ∀ (j : Nat) (K : String),
        cell data' j K =
          if j = i then (bandValue r prom i K).orElse (fun _ => cell data j K)
          else cell data j K := by
  obtain ⟨d1, hd1, hl1, hc1⟩ := assignCell_spec data i "avg" (numberAt prom i) hi
  obtain ⟨d2, hd2, hl2, hc2⟩ :=
    assignCell_spec d1 i "p5" (numberAt r.ruta_p5 i) (by omega)
  obtain ⟨d3, hd3, hl3, hc3⟩ :=
    assignCell_spec d2 i "p95" (numberAt r.ruta_p95 i) (by omega)
  refine ⟨d3, ?_, by omega, ?_⟩
  · simp [fillBands, hd1, hd2, hd3]
  · intro j K
    rw [hc3, hc2, hc1]
    by_cases hj : j = i
    · subst hj
      by_cases h1 : K = "avg"
      · subst h1
        simp [bandValue]
      · by_cases h2 : K = "p5"
        · subst h2
          simp [bandValue]
        · by_cases h3 : K = "p95"
          · subst h3
            simp [bandValue]
          · simp [bandValue, h1, h2, h3]
    · simp [hj]

theorem fillBands_fold (r : SimResponse) (prom : List ℚ) :
    ∀ (idxs : List Nat) (data : List Row), (∀ i ∈ idxs, i < data.length) →
      ∃ data', idxs.foldlM (fillBands r prom) data = some data' ∧
        data'.length = data.length ∧
        ∀ (j : Nat) (K : String),
          cell data' j K =
            if j ∈ idxs then (bandValue r prom j K).orElse (fun _ => cell data j K)
            else cell data j K := by
  intro idxs
  induction idxs with
  | nil =>
    intro data _
    exact ⟨data, rfl, rfl, fun j K => by simp⟩
  | cons i rest ih =>
    intro data hlen
    obtain ⟨d1, hd1, hl1, hc1⟩ :=
      fillBands_spec r prom data i (hlen i (List.mem_cons_self _ _))
    obtain ⟨d2, hd2, hl2, hc2⟩ := ih d1 (by
      intro k hk
      rw [hl1]
      exact hlen k (List.mem_cons_of_mem _ hk))
    refine ⟨d2, ?_, by omega, ?_⟩
    · simp only [List.foldlM_cons, hd1]
      exact hd2
    · intro j K
      rw [hc2, hc1]
      by_cases hji : j = i
      · subst hji
        by_cases hr : j ∈ rest
        · cases hb : bandValue r prom j K <;> simp [hr, hb]
        · simp [hr]
      · by_cases hr : j ∈ rest
        · simp [hr, hji]
        · simp [hr, hji]

theorem length_initialRows (n : Nat) : (initialRows n).length = n := by
  unfold initialRows
  rw [List.length_map, List.length_range]

theorem cell_initialRows (n j : Nat) (K : String) :
    cell (initialRows n) j K =
      if j < n ∧ K = "day" then some (JSNum.fin (j : ℚ)) else none := by
  unfold cell initialRows
  by_cases hj : j < n
  · have hget : ((List.range n).map (fun (i : Nat) => [("day", JSNum.fin (i : ℚ))]))[j]? =
        some [("day", JSNum.fin (j : ℚ))] := by
      rw [List.getElem?_map, List.getElem?_range hj]
      rfl
    rw [hget]
    by_cases hK : K = "day"
    · subst hK
      simp [Row.read, hj]
    · have hK2 : ¬ "day" = K := fun e => hK e.symm
      simp [Row.read, hK, hK2]
  · have hget : ((List.range n).map (fun (i : Nat) => [("day", JSNum.fin (i : ℚ))]))[j]? = none := by
      rw [List.getElem?_eq_none_iff, List.length_map, List.length_range]
      omega
    rw [hget]
    simp [hj]

/-- The rows `chartData` builds when `ruta_prom` is present and no path of
`simulaciones` is longer than it. -/
theorem chartData_rows (r : SimResponse) (prom : List ℚ) (hprom : r.ruta_prom = some prom)
    (hpaths : ∀ path ∈ r.simulaciones, path.length ≤ prom.length) :
    ∃ rows, chartData (some r) = some rows ∧ rows.length = prom.length ∧
      (∀ j : Nat, j < prom.length →
        cell rows j "day" = some (JSNum.fin (j : ℚ)) ∧
        cell rows j "avg" = some (numberAt prom j) ∧
        cell rows j "p5" = some (numberAt r.ruta_p5 j) ∧
        cell rows j "p95" = some (numberAt r.ruta_p95 j)) ∧
      (∀ (k : Nat) (path : List ℚ) (j : Nat) (p : ℚ), r.simulaciones[k]? = some path →
        path[j]? = some p → cell rows j (simKey k) = some (JSNum.fin p)) := by
  obtain ⟨d1, hd1, hl1, hc1⟩ :=
    fillBands_fold r prom (List.range prom.length) (initialRows prom.length) (by
      intro i hi
      rw [length_initialRows]
      exact List.mem_range.mp hi)
  have hl1' : d1.length = prom.length := by
    rw [hl1, length_initialRows]
  obtain ⟨d2, hd2, hl2, hother, hat⟩ := plotAll_spec r.simulaciones d1 (by
    intro path hp
    rw [hl1']
    exact hpaths path hp)
  refine ⟨d2, ?_, by omega, ?_, hat⟩
  · simp only [chartData, hprom, hd1]
    exact hd2
  · intro j hj
    have hmem : j ∈ List.range prom.length := List.mem_range.mpr hj
    have hfix := fun k => simKey_ne_fixed k
    refine ⟨?_, ?_, ?_, ?_⟩
    · rw [hother j "day" (fun k e => (hfix k).1 e.symm), hc1, cell_initialRows]
      simp [hmem, bandValue, hj]
    · rw [hother j "avg" (fun k e => (hfix k).2.1 e.symm), hc1]
      simp [hmem, bandValue]
    · rw [hother j "p5" (fun k e => (hfix k).2.2.1 e.symm), hc1]
      simp [hmem, bandValue]
    · rw [hother j "p95" (fun k e => (hfix k).2.2.2 e.symm), hc1]
      simp [hmem, bandValue]

/-! ## The claims -/

/-- C1 (as amended): for every form state `handleSimulate` issues exactly one call, a
POST to `/api/simulate`, whose body has exactly the keys `prc_actual`, `volat`,
`num_dias`, `num_sims`, in that order, holding `current_price`, `volatility`,
`num_days` and `num_simulations` as `JSON.stringify` writes them: a finite number
unchanged, `NaN` and the infinities as `null`. -/
theorem handleSimulate_posts_form_values (h : Host) (net : FetchCall → FetchOutcome)
    (st : UIState) :
    (handleSimulate h net st).2 =
        [ { url := "/api/simulate"
            method := "POST"
            headers := [("Content-Type", "application/json")]
            body := Json.obj
              [ ("prc_actual", stringifyNumber st.input.current_price),
                ("volat", stringifyNumber st.input.volatility),
                ("num_dias", stringifyNumber st.input.num_days),
                ("num_sims", stringifyNumber st.input.num_simulations) ] } ] ∧
      (∀ q : ℚ, stringifyNumber (JSNum.fin q) = Json.num q) ∧
      (∀ v : JSNum, v.isFinite = false → stringifyNumber v = Json.null) := by
  refine ⟨rfl, fun _ => rfl, ?_⟩
  intro v hv
  cases v with
  | nan => rfl
  | inf neg => rfl
  | fin q => simp [JSNum.isFinite] at hv

/-- C1 (counterexample): after `abc` is typed into the price field the state holds
`NaN`, and the body posted carries `prc_actual: null`, not the state value. -/
theorem handleSimulate_posts_null_for_NaN :
    (handleChange initialInput Field.current_price "abc").current_price = JSNum.nan ∧
      (handleSimulate sampleHost offline
          { initialState with
            input := handleChange initialInput Field.current_price "abc" }).2.map
          FetchCall.body =
        [ Json.obj
            [ ("prc_actual", Json.null),
              ("volat", Json.num (3602879701896397 / 18014398509481984)),
              ("num_dias", Json.num 252),
              ("num_sims", Json.num 1000) ] ] := by
  have hc : handleChange initialInput Field.current_price "abc" =
      { initialInput with current_price := JSNum.nan } := by decide!
  rw [hc]
  exact ⟨rfl, rfl⟩

/-- C2 (as amended): for every non-2xx response whose body is an object with
`detail: d`, `d` a string, the error state after `handleSimulate` is `d` when `d` is
not empty, and that text is the one shown; for the empty `d` it is
`Error <status>: <statusText>`. -/
theorem handleSimulate_error_detail (h : Host) (net : FetchCall → FetchOutcome)
    (st : UIState) (r : Response) (props : List (String × Json)) (d : String)
    (hnet : net (simulateCall st.input) = FetchOutcome.resolved r)
    (hok : r.ok = false)
    (hbody : r.body = BodyResult.parsed (Json.obj props))
    (hdetail : lookupProp "detail" props = some (Json.str d)) :
    (handleSimulate h net st).1.error =
        some (if d = "" then "Error " ++ toString r.status ++ ": " ++ r.statusText else d) ∧
      (d ≠ "" → shownError (handleSimulate h net st).1 = some d) := by
  have hthrown : thrownForErrorBody h r (Json.obj props) =
      if d = "" then statusMessage r else d := by
    by_cases hd : d = ""
    · simp [thrownForErrorBody, Json.getProp, hdetail, Json.truthy, Json.toStringJS, hd]
    · simp [thrownForErrorBody, Json.getProp, hdetail, Json.truthy, Json.toStringJS, hd]
  have herr : (handleSimulate h net st).1.error =
      some (catchMessage (if d = "" then statusMessage r else d)) := by
    simp [handleSimulate, hnet, tryBlock, hok, hbody, hthrown]
  by_cases hd : d = ""
  · refine ⟨?_, fun hne => absurd hd hne⟩
    rw [herr]
    simp only [hd, if_true]
    rw [catchMessage_of_ne_empty _ (statusMessage_ne_empty r)]
    rfl
  · have herr2 : (handleSimulate h net st).1.error = some d := by
      rw [herr]
      simp only [hd, if_false]
      rw [catchMessage_of_ne_empty _ hd]
    refine ⟨by rw [herr2]; simp [hd], fun _ => ?_⟩
    simp [shownError, herr2, hd]

/-- C2 (witness): a 422 response with detail `volat must be >= 0`. -/
theorem handleSimulate_error_detail_witness :
    (handleSimulate sampleHost
        (answering ⟨422, "Unprocessable Entity",
          BodyResult.parsed (Json.obj [("detail", Json.str "volat must be >= 0")])⟩)
        initialState).1.error =
        some (if "volat must be >= 0" = "" then
          "Error " ++ toString 422 ++ ": " ++ "Unprocessable Entity"
          else "volat must be >= 0") ∧
      ("volat must be >= 0" ≠ "" →
        shownError (handleSimulate sampleHost
          (answering ⟨422, "Unprocessable Entity",
            BodyResult.parsed (Json.obj [("detail", Json.str "volat must be >= 0")])⟩)
          initialState).1 = some "volat must be >= 0") :=
  handleSimulate_error_detail sampleHost _ initialState
    ⟨422, "Unprocessable Entity",
      BodyResult.parsed (Json.obj [("detail", Json.str "volat must be >= 0")])⟩
    [("detail", Json.str "volat must be >= 0")] "volat must be >= 0" rfl (by decide) rfl rfl

/-- C2 (counterexample): a 422 response whose detail is the empty string leaves the
error state at `Error 422: Unprocessable Entity`, not at the detail. -/
theorem handleSimulate_empty_detail :
    (handleSimulate sampleHost
        (answering ⟨422, "Unprocessable Entity",
          BodyResult.parsed (Json.obj [("detail", Json.str "")])⟩)
        initialState).1.error = some "Error 422: Unprocessable Entity" ∧
      some "Error 422: Unprocessable Entity" ≠ some "" := by
  constructor
  · decide!
  · decide

/-- C3 (as amended): for every form state, also one in which `current_price <= 0`,
`volatility < 0`, `num_days < 1` or `num_simulations < 1`, `handleSimulate` performs
exactly one POST to `/api/simulate` carrying the form values: nothing is validated
before the call.  Whether submitting fails is decided by the request alone: a 2xx
response with a parsable body is stored and no error is set, and an error is set
exactly when the request has any other outcome. -/
theorem handleSimulate_posts_unvalidated (h : Host) (net : FetchCall → FetchOutcome)
    (st : UIState) :
    (handleSimulate h net st).2 = [simulateCall st.input] ∧
      (simulateCall st.input).url = "/api/simulate" ∧
      (simulateCall st.input).method = "POST" ∧
      (simulateCall st.input).body = requestBody st.input ∧
      (∀ data : Json, succeeded (net (simulateCall st.input)) = some data →
        (handleSimulate h net st).1.results = data ∧
          (handleSimulate h net st).1.error = none) ∧
      ((handleSimulate h net st).1.error ≠ none ↔
        succeeded (net (simulateCall st.input)) = none) := by
  refine ⟨rfl, rfl, rfl, rfl, ?_, ?_⟩
  · intro data hs
    have ht := (tryBlock_eq_ok_iff h _ data).mpr hs
    simp [handleSimulate, ht]
  · cases ht : tryBlock h (net (simulateCall st.input)) with
    | ok data =>
      have hs := (tryBlock_eq_ok_iff h _ data).mp ht
      simp [handleSimulate, ht, hs]
    | error m =>
      have hs : succeeded (net (simulateCall st.input)) = none := by
        cases hsome : succeeded (net (simulateCall st.input)) with
        | none => rfl
        | some data =>
          have := (tryBlock_eq_ok_iff h _ data).mpr hsome
          rw [ht] at this
          cases this
      simp [handleSimulate, ht, hs]

/-- C3 (counterexample): with `0` typed into the price field the request is invalid,
and submitting it still issues the POST. -/
theorem handleSimulate_posts_zero_price :
    (handleChange initialInput Field.current_price "0").current_price = JSNum.fin 0 ∧
      invalidRequest (handleChange initialInput Field.current_price "0") = true ∧
      (handleSimulate sampleHost offline
          { initialState with
            input := handleChange initialInput Field.current_price "0" }).2.map
          (fun c => (c.url, c.method)) = [("/api/simulate", "POST")] := by
  refine ⟨by decide!, by decide!, rfl⟩

/-- C4 (as amended): for every sequence of `handleChange` edits followed by a submit,
the posted `num_dias` and `num_sims` (like the other two values) are what
`JSON.stringify` writes for the number the last edit of the field stored: 0 when the
text, its first comma replaced by a period, is empty, `parseFloat` of that text
otherwise, and the earlier state value when the field was not edited.  Nothing
converts them to integers: whatever the state and the earlier edits, when the last
text typed into `num_days` is `1.5` the posted `num_dias` is 1.5, and when the last
text typed into `num_simulations` is `2.5` the posted `num_sims` is 2.5. -/
theorem handleSimulate_posts_last_edits (h : Host) (net : FetchCall → FetchOutcome)
    (st : UIState) (edits : List (Field × String)) :
    (handleSimulate h net { st with input := applyEdits st.input edits }).2.map
        FetchCall.body =
      [ Json.obj
          [ ("prc_actual", stringifyNumber (finalValue st.input edits Field.current_price)),
            ("volat", stringifyNumber (finalValue st.input edits Field.volatility)),
            ("num_dias", stringifyNumber (finalValue st.input edits Field.num_days)),
            ("num_sims",
              stringifyNumber (finalValue st.input edits Field.num_simulations)) ] ] ∧
      (handleSimulate h net
          { st with
            input := applyEdits st.input (edits ++ [(Field.num_days, "1.5")]) }).2.map
        FetchCall.body =
      [ Json.obj
          [ ("prc_actual", stringifyNumber (finalValue st.input edits Field.current_price)),
            ("volat", stringifyNumber (finalValue st.input edits Field.volatility)),
            ("num_dias", Json.num (3 / 2)),
            ("num_sims",
              stringifyNumber (finalValue st.input edits Field.num_simulations)) ] ] ∧
      (handleSimulate h net
          { st with
            input := applyEdits st.input (edits ++ [(Field.num_simulations, "2.5")]) }).2.map
        FetchCall.body =
      [ Json.obj
          [ ("prc_actual", stringifyNumber (finalValue st.input edits Field.current_price)),
            ("volat", stringifyNumber (finalValue st.input edits Field.volatility)),
            ("num_dias", stringifyNumber (finalValue st.input edits Field.num_days)),
            ("num_sims", Json.num (5 / 2)) ] ] ∧
      (JSNum.fin (3 / 2)).isInteger = false ∧ (JSNum.fin (5 / 2)).isInteger = false := by
  have hdays : (if sanitizedValue "1.5" = "" then JSNum.fin 0
      else parseFloat (sanitizedValue "1.5")) = JSNum.fin (3 / 2) := by decide!
  have hsims : (if sanitizedValue "2.5" = "" then JSNum.fin 0
      else parseFloat (sanitizedValue "2.5")) = JSNum.fin (5 / 2) := by decide!
  refine ⟨posted_body_after_edits h net st edits, ?_, ?_, by decide!, by decide!⟩
  · rw [posted_body_after_edits, finalValue_snoc_same, hdays,
      finalValue_snoc_other _ _ _ _ _ (by decide),
      finalValue_snoc_other _ _ _ _ _ (by decide),
      finalValue_snoc_other _ _ _ _ _ (by decide)]
    rfl
  · rw [posted_body_after_edits, finalValue_snoc_same, hsims,
      finalValue_snoc_other _ _ _ _ _ (by decide),
      finalValue_snoc_other _ _ _ _ _ (by decide),
      finalValue_snoc_other _ _ _ _ _ (by decide)]
    rfl

/-- C4 (counterexample): after `1.5` is typed into the days field the posted
`num_dias` is 1.5, which is not an integer. -/
theorem handleSimulate_posts_fractional_days :
    (handleSimulate sampleHost offline
        { initialState with
          input := applyEdits initialInput [(Field.num_days, "1.5")] }).2.map
        FetchCall.body =
      [ Json.obj
          [ ("prc_actual", Json.num 100),
            ("volat", Json.num (3602879701896397 / 18014398509481984)),
            ("num_dias", Json.num (3 / 2)),
            ("num_sims", Json.num 1000) ] ] ∧
      (JSNum.fin (3 / 2)).isInteger = false := by
  have hc : applyEdits initialInput [(Field.num_days, "1.5")] =
      { initialInput with num_days := JSNum.fin (3 / 2) } := by decide!
  rw [hc]
  refine ⟨rfl, ?_⟩
  decide!

/-- C5 (the code at the failing input): on `1,2,3` the sanitized value is `1.2,3`, the
first comma only being replaced, whereas replacing every comma gives `1.2.3`; the
number stored is the binary64 value written 1.2. -/
theorem sanitizedValue_replaces_first_comma_only :
    sanitizedValue "1,2,3" = "1.2,3" ∧
      String.mk (replaceEvery ',' '.' "1,2,3".data) = "1.2.3" ∧
      sanitizedValue "1,2,3" ≠ String.mk (replaceEvery ',' '.' "1,2,3".data) ∧
      (handleChange initialInput Field.current_price "1,2,3").current_price =
        JSNum.fin (5404319552844595 / 4503599627370496) := by
  refine ⟨by decide, by decide, by decide, by decide!⟩

/-- C6 (the code at the failing input): the non-empty texts `abc` and `-` make
`handleChange` store `NaN`; the empty text stores 0. -/
theorem handleChange_stores_NaN :
    "abc" ≠ "" ∧
      (handleChange initialInput Field.current_price "abc").current_price = JSNum.nan ∧
      (handleChange initialInput Field.current_price "abc").current_price.isNaN = true ∧
      (handleChange initialInput Field.num_days "-").num_days = JSNum.nan ∧
      (handleChange initialInput Field.current_price "").current_price = JSNum.fin 0 := by
  refine ⟨by decide, by decide!, by decide!, by decide!, by decide!⟩

/-- C7: for every response of the wire contract whose `ruta_prom`, `ruta_p5` and
`ruta_p95` all have the same length `L`, `chartData` has exactly `L` rows and, for
every `i < L`, row `i` has `day = i`, `avg = ruta_prom[i]`, `p5 = ruta_p5[i]` and
`p95 = ruta_p95[i]`, in the original day order.  Of the shape invariant of the
contract only this much is used: no path of `simulaciones` has more than `L`
entries. -/
theorem chartData_band_rows (r : SimResponse) (prom : List ℚ)
    (hprom : r.ruta_prom = some prom)
    (h5 : r.ruta_p5.length = prom.length) (h95 : r.ruta_p95.length = prom.length)
    (hpaths : ∀ path ∈ r.simulaciones, path.length ≤ prom.length) :
    ∃ rows, chartData (some r) = some rows ∧ rows.length = prom.length ∧
      ∀ i : Nat, i < prom.length →
        ∃ a b c : ℚ, prom[i]? = some a ∧ r.ruta_p5[i]? = some b ∧ r.ruta_p95[i]? = some c ∧
          cell rows i "day" = some (JSNum.fin (i : ℚ)) ∧
          cell rows i "avg" = some (JSNum.fin a) ∧
          cell rows i "p5" = some (JSNum.fin b) ∧
          cell rows i "p95" = some (JSNum.fin c) := by
  obtain ⟨rows, hrows, hlen, hbands, _⟩ := chartData_rows r prom hprom hpaths
  refine ⟨rows, hrows, hlen, ?_⟩
  intro i hi
  have ha : prom[i]? = some prom[i] := List.getElem?_eq_getElem hi
  have hb : r.ruta_p5[i]? = some (r.ruta_p5[i]) := List.getElem?_eq_getElem (by omega)
  have hc : r.ruta_p95[i]? = some (r.ruta_p95[i]) := List.getElem?_eq_getElem (by omega)
  obtain ⟨hday, havg, hp5, hp95⟩ := hbands i hi
  refine ⟨prom[i], r.ruta_p5[i], r.ruta_p95[i], ha, hb, hc, hday, ?_, ?_, ?_⟩
  · rw [havg]
    simp [numberAt, ha]
  · rw [hp5]
    simp [numberAt, hb]
  · rw [hp95]
    simp [numberAt, hc]

/-- C7 (witness): the two-day sample response. -/
theorem chartData_band_rows_witness :
    (∀ path ∈ sampleResponse.simulaciones, path.length ≤ ([1, 2] : List ℚ).length) ∧
      ∃ rows, chartData (some sampleResponse) = some rows ∧
        rows.length = ([1, 2] : List ℚ).length ∧
        ∀ i : Nat, i < ([1, 2] : List ℚ).length →
          ∃ a b c : ℚ, ([1, 2] : List ℚ)[i]? = some a ∧
            sampleResponse.ruta_p5[i]? = some b ∧ sampleResponse.ruta_p95[i]? = some c ∧
            cell rows i "day" = some (JSNum.fin (i : ℚ)) ∧
            cell rows i "avg" = some (JSNum.fin a) ∧
            cell rows i "p5" = some (JSNum.fin b) ∧
            cell rows i "p95" = some (JSNum.fin c) :=
  have hp : ∀ path ∈ sampleResponse.simulaciones, path.length ≤ ([1, 2] : List ℚ).length := by
    intro path hmem
    simp only [sampleResponse, List.mem_cons, List.mem_singleton, List.not_mem_nil,
      or_false] at hmem
    rcases hmem with rfl | rfl <;> simp
  ⟨hp, chartData_band_rows sampleResponse [1, 2] rfl rfl rfl hp⟩

/-- Outside the shape invariant: with bands of length 1, a path with two entries makes
building `chartData` throw. -/
theorem chartData_throws_on_long_path :
    raggedResponse.ruta_prom = some [1] ∧ raggedResponse.ruta_p5.length = 1 ∧
      raggedResponse.ruta_p95.length = 1 ∧ chartData (some raggedResponse) = none := by
  refine ⟨rfl, rfl, rfl, ?_⟩
  decide!

/-- C8: for every response in which every inner array of `simulaciones` has the length
of `ruta_prom`, building `chartData` does not throw, and for every path index `k` and
step `j` row `j` carries the key `sim` followed by `k` with value
`simulaciones[k][j]`; distinct path indices give distinct keys, none of them `day`,
`avg`, `p5` or `p95`, and those four fields keep the values lines 85-91 gave them. -/
theorem chartData_plots_every_path (r : SimResponse) (prom : List ℚ)
    (hprom : r.ruta_prom = some prom)
    (hshape : ∀ path ∈ r.simulaciones, path.length = prom.length) :
    ∃ rows, chartData (some r) = some rows ∧ rows.length = prom.length ∧
      (∀ (k : Nat) (path : List ℚ) (j : Nat) (p : ℚ), r.simulaciones[k]? = some path →
        path[j]? = some p → cell rows j (simKey k) = some (JSNum.fin p)) ∧
      (∀ k k' : Nat, k ≠ k' → simKey k ≠ simKey k') ∧
      (∀ k : Nat, simKey k = "sim" ++ toString k ∧ simKey k ≠ "day" ∧ simKey k ≠ "avg" ∧
        simKey k ≠ "p5" ∧ simKey k ≠ "p95") ∧
      (∀ j : Nat, j < prom.length →
        cell rows j "day" = some (JSNum.fin (j : ℚ)) ∧
        cell rows j "avg" = some (numberAt prom j) ∧
        cell rows j "p5" = some (numberAt r.ruta_p5 j) ∧
        cell rows j "p95" = some (numberAt r.ruta_p95 j)) := by
  obtain ⟨rows, hrows, hlen, hbands, hsims⟩ :=
    chartData_rows r prom hprom (fun path hp => le_of_eq (hshape path hp))
  exact ⟨rows, hrows, hlen, hsims, fun k k' hne e => hne (simKey_injective k k' e),
    fun k => ⟨rfl, simKey_ne_fixed k⟩, hbands⟩

/-- C8 (witness): the two-day sample response. -/
theorem chartData_plots_every_path_witness :
    (∀ path ∈ sampleResponse.simulaciones, path.length = ([1, 2] : List ℚ).length) ∧
      ∃ rows, chartData (some sampleResponse) = some rows ∧
        rows.length = ([1, 2] : List ℚ).length ∧
        (∀ (k : Nat) (path : List ℚ) (j : Nat) (p : ℚ),
          sampleResponse.simulaciones[k]? = some path →
          path[j]? = some p → cell rows j (simKey k) = some (JSNum.fin p)) ∧
        (∀ k k' : Nat, k ≠ k' → simKey k ≠ simKey k') ∧
        (∀ k : Nat, simKey k = "sim" ++ toString k ∧ simKey k ≠ "day" ∧
          simKey k ≠ "avg" ∧ simKey k ≠ "p5" ∧ simKey k ≠ "p95") ∧
        (∀ j : Nat, j < ([1, 2] : List ℚ).length →
          cell rows j "day" = some (JSNum.fin (j : ℚ)) ∧
          cell rows j "avg" = some (numberAt [1, 2] j) ∧
          cell rows j "p5" = some (numberAt sampleResponse.ruta_p5 j) ∧
          cell rows j "p95" = some (numberAt sampleResponse.ruta_p95 j)) :=
  have hp : ∀ path ∈ sampleResponse.simulaciones,
      path.length = ([1, 2] : List ℚ).length := by
    intro path hmem
    simp only [sampleResponse, List.mem_cons, List.mem_singleton, List.not_mem_nil,
      or_false] at hmem
    rcases hmem with rfl | rfl <;> simp
  ⟨hp, chartData_plots_every_path sampleResponse [1, 2] rfl hp⟩

/-- C9: whatever the outcome of the request, when `handleSimulate` finishes
`isLoading` is false and `results` and `error` are not both non-null; on a 2xx
response with a parsable body `results` is that body and `error` is null; on every
other outcome `results` is null and `error` is a non-empty string. -/
theorem handleSimulate_final_state (h : Host) (net : FetchCall → FetchOutcome)
    (st : UIState) :
    (handleSimulate h net st).1.isLoading = false ∧
      ((handleSimulate h net st).1.results = Json.null ∨
        (handleSimulate h net st).1.error = none) ∧
      (∀ data : Json, succeeded (net (simulateCall st.input)) = some data →
        (handleSimulate h net st).1.results = data ∧
          (handleSimulate h net st).1.error = none) ∧
      (succeeded (net (simulateCall st.input)) = none →
        (handleSimulate h net st).1.results = Json.null ∧
          ∃ m : String, (handleSimulate h net st).1.error = some m ∧ m ≠ "") := by
  refine ⟨rfl, ?_, ?_, ?_⟩
  · cases ht : tryBlock h (net (simulateCall st.input)) with
    | ok data => right; simp [handleSimulate, ht]
    | error m => left; simp [handleSimulate, ht]
  · intro data hs
    have ht := (tryBlock_eq_ok_iff h _ data).mpr hs
    simp [handleSimulate, ht]
  · intro hs
    obtain ⟨m, hm⟩ := tryBlock_error_of_not_succeeded h _ hs
    refine ⟨by simp [handleSimulate, hm], catchMessage m, by simp [handleSimulate, hm], ?_⟩
    exact catchMessage_ne_empty m

end MontecarloSolver

